import Mathlib

set_option autoImplicit false

/-!
Shallow embedding of the publishing pipeline of the `x2a-convertor`
repository (`src/publishers/tools.py` and its collaborators), together
with proofs of the specified properties.

Python values, exceptions and the filesystem are modelled explicitly:
fallible Python functions become `Except`-valued Lean functions, the
environment and network collaborators that are not part of the embedded module
become oracle parameters, and machine state (filesystem, network calls)
is threaded explicitly.
-/

namespace X2A

/-! ## Python exception model

Python exceptions relevant to `src/publishers/tools.py`: the `except`
clauses of the module discriminate on the exception class, so the kind
is carried alongside the message (`str(e)`). -/

inductive PyExcKind where
  | requestException
  | runtimeError
  | valueError
  | typeError
  | assertionError
  | fileNotFoundError
  | osError
  | otherError
  deriving Repr, DecidableEq

structure PyExc where
  kind : PyExcKind
  msg : String
  deriving Repr, DecidableEq

/-! ## AAPSyncResult (`tools.py`, lines 25–67) -/

/-- Result of syncing a repository to AAP (dataclass `AAPSyncResult`). -/
structure AAPSyncResult where
  enabled : Bool := false
  project_name : String := ""
  project_id : Option Int := none
  project_update_id : Option Int := none
  project_update_status : String := ""
  error : String := ""
  deriving Repr, DecidableEq

/-- `AAPSyncResult.disabled()`: a result indicating AAP is not enabled. -/
def AAPSyncResult.disabled : AAPSyncResult := { enabled := false }

/-- `AAPSyncResult.from_error(error)`: a result indicating an error occurred. -/
def AAPSyncResult.from_error (error : String) : AAPSyncResult :=
  { enabled := true, error := error }

/-! ## Oracle model of the collaborators of `sync_to_aap`

`AAPConfig.from_env`, `AAPClient`, `get_settings` and the two `infer_*`
helpers live in `src/publishers/aap_client.py` / `src/config.py`, which
are not part of the embedded module; their observable behaviour is
modelled from the spec as data supplied by the caller. -/

/-- Modelled from the spec: the connection configuration object returned by
`AAPConfig.from_env`.  Only the field read by `sync_to_aap` is kept; the
remaining connection fields are opaque to the orchestrator. -/
structure AAPConfig where
  organization_name : String
  deriving Repr, DecidableEq

/-- Modelled from the spec: the outcome of `AAPConfig.from_env()` — `None`
when the base-URL environment variable is absent (disabled), a raised
exception when configuration is present but invalid, or a config object. -/
inductive FromEnvOutcome where
  | disabled
  | raises (e : PyExc)
  | ok (cfg : AAPConfig)
  deriving Repr, DecidableEq

/-- The project representation returned by `AAPClient.upsert_project`:
a JSON object whose `id` field may be absent (`none`). -/
structure ProjectRepr where
  id : Option Int
  deriving Repr, DecidableEq

/-- The project-update representation returned by
`AAPClient.start_project_update`: `id` may be absent, `status` defaults
to the empty string (`update.get("status", "")`). -/
structure UpdateRepr where
  id : Option Int
  status : String := ""
  deriving Repr, DecidableEq

/-- Network calls `sync_to_aap` can make through `AAPClient`, recorded in
order so that "no network call" claims are statable. -/
inductive NetCall where
  | find_organization_id
  | upsert_project
  | start_project_update
  deriving Repr, DecidableEq

/-- Modelled from the spec: the behaviour of the environment, settings and
the controller client as seen by one `sync_to_aap` invocation. -/
structure AAPDeps where
  from_env : FromEnvOutcome
  settings_project_name : String
  settings_scm_credential_id : Option Int
  infer_aap_project_name : String → String
  infer_aap_project_description : String → String → String
  find_organization_id : String → Except PyExc Int
  upsert_project : Int → String → String → String → String → Option Int →
      Except PyExc ProjectRepr
  start_project_update : Int → Except PyExc UpdateRepr

/-- The exception classes caught by the `except` clause closing the main
`try` block of `sync_to_aap` (`requests.exceptions.RequestException,
RuntimeError, ValueError`). -/
def caught_by_sync (e : PyExc) : Bool :=
  match e.kind with
  | .requestException => true
  | .runtimeError => true
  | .valueError => true
  | _ => false

/-- The project name computed by `sync_to_aap`:
`settings.aap.project_name or infer_aap_project_name(repository_url)`
(a Python `or`, so the empty string falls through to the inferred name). -/
def sync_project_name (deps : AAPDeps) (repository_url : String) : String :=
  if deps.settings_project_name = "" then deps.infer_aap_project_name repository_url
  else deps.settings_project_name

/-- The body of the main `try` block of `sync_to_aap` (`tools.py`,
lines 624–650), returning the normal result or the raised exception,
paired with the list of client calls made.  The `assert
cfg.organization_name` statement raises `AssertionError` when the name is
falsy (empty). -/
def sync_try_block (deps : AAPDeps) (cfg : AAPConfig) (project_name : String)
    (repository_url branch : String) :
    Except PyExc AAPSyncResult × List NetCall :=
  if cfg.organization_name = "" then
    (.error ⟨.assertionError, "cfg.organization_name"⟩, [])
  else
    match deps.find_organization_id cfg.organization_name with
    | .error e => (.error e, [.find_organization_id])
    | .ok org_id =>
      let description := deps.infer_aap_project_description repository_url branch
      match deps.upsert_project org_id project_name repository_url branch description
          deps.settings_scm_credential_id with
      | .error e => (.error e, [.find_organization_id, .upsert_project])
      | .ok project =>
        let project_id : Int := project.id.getD 0
        if project_id = 0 then
          (.ok (AAPSyncResult.from_error "AAP API did not return a project id"),
            [.find_organization_id, .upsert_project])
        else
          match deps.start_project_update project_id with
          | .error e =>
            (.error e, [.find_organization_id, .upsert_project, .start_project_update])
          | .ok update =>
            (.ok { enabled := true
                   project_name := project_name
                   project_id := some project_id
                   project_update_id := update.id
                   project_update_status := update.status },
              [.find_organization_id, .upsert_project, .start_project_update])

/-- `sync_to_aap(repository_url, branch)` (`tools.py`, lines 591–652).
The first `try/except` around `AAPConfig.from_env()` catches only
`ValueError`; the main `try` block is closed by an `except` catching
`(RequestException, RuntimeError, ValueError)`.  Exceptions of any other
class propagate (`.error`). -/
def sync_to_aap (deps : AAPDeps) (repository_url branch : String) :
    Except PyExc AAPSyncResult × List NetCall :=
  match deps.from_env with
  | .raises e =>
    (if e.kind = .valueError then .ok (AAPSyncResult.from_error e.msg) else .error e, [])
  | .disabled => (.ok AAPSyncResult.disabled, [])
  | .ok cfg =>
    let project_name := sync_project_name deps repository_url
    let res := sync_try_block deps cfg project_name repository_url branch
    (match res.1 with
      | .ok r => .ok r
      | .error e =>
        if caught_by_sync e then .ok (AAPSyncResult.from_error e.msg) else .error e,
      res.2)

/-! ## Outcome shapes of `AAPSyncResult` -/

/-- The "disabled" outcome shape: `enabled = False`. -/
def disabled_shape (r : AAPSyncResult) : Prop := r.enabled = false

/-- The "errored" outcome shape: `enabled = True` and `error` non-empty. -/
def errored_shape (r : AAPSyncResult) : Prop := r.enabled = true ∧ r.error ≠ ""

/-- The "succeeded" outcome shape: `enabled = True`, `error` empty and
`project_id` set. -/
def succeeded_shape (r : AAPSyncResult) : Prop :=
  r.enabled = true ∧ r.error = "" ∧ r.project_id ≠ none

/-- Exactly one of three propositions holds. -/
def exactly_one (a b c : Prop) : Prop :=
  (a ∨ b ∨ c) ∧ ¬(a ∧ b) ∧ ¬(a ∧ c) ∧ ¬(b ∧ c)

/-- An exception raised by one of the three `AAPClient` calls available to
`sync_to_aap` under the given oracle. -/
def client_raised (deps : AAPDeps) (e : PyExc) : Prop :=
  (∃ n, deps.find_organization_id n = .error e) ∨
  (∃ o n u b d c, deps.upsert_project o n u b d c = .error e) ∨
  (∃ p, deps.start_project_update p = .error e)

/-- A concrete oracle on which every call succeeds: controller configured
for organization `Default`, project id 42, update job 100 `pending`. -/
def oracleDeps : AAPDeps where
  from_env := .ok ⟨"Default"⟩
  settings_project_name := ""
  settings_scm_credential_id := none
  infer_aap_project_name := fun _ => "repo"
  infer_aap_project_description := fun _ _ => "desc"
  find_organization_id := fun _ => .ok 7
  upsert_project := fun _ _ _ _ _ _ => .ok ⟨some 42⟩
  start_project_update := fun _ => .ok ⟨some 100, "pending"⟩

/-- The successful-call oracle, but with the base-URL variable unset. -/
def oracleDepsDisabled : AAPDeps :=
  { oracleDeps with from_env := .disabled }

/-- The successful-call oracle, but the upsert response carries no `id`. -/
def oracleDepsNoId : AAPDeps :=
  { oracleDeps with upsert_project := fun _ _ _ _ _ _ => .ok ⟨none⟩ }

/-! ## Filesystem model for `verify_files_exist` (`tools.py`, lines 564–588)

The filesystem is abstracted to the list of paths for which
`Path(p).exists()` is true. -/

/-- Python's `"\n".join(...)`. -/
def join_with_newlines : List String → String
  | [] => ""
  | [s] => s
  | s :: t :: rest => s ++ "\n" ++ join_with_newlines (t :: rest)

/-- The message of the `FileNotFoundError` raised by `verify_files_exist`:
`f"{len(missing_files)} files are missing:\n" + "\n".join(f"  - {f}" ...)`. -/
def missing_message (missing_files : List String) : String :=
  toString missing_files.length ++ " files are missing:\n" ++
    join_with_newlines (missing_files.map (fun f => "  - " ++ f))

/-- `verify_files_exist(file_paths)` against the existing paths `fs`:
collects every listed path that does not exist and raises
`FileNotFoundError` when that collection is non-empty. -/
def verify_files_exist (fs : List String) (file_paths : List String) :
    Except PyExc Unit :=
  let missing_files := file_paths.filter (fun p => decide (p ∉ fs))
  if missing_files.isEmpty then .ok ()
  else .error ⟨.fileNotFoundError, missing_message missing_files⟩

/-! ## Filesystem model for `create_directory_structure` (`tools.py`, 188–227)

`Path.mkdir(parents=True, exist_ok=True)` succeeds on an existing
directory; on a missing one the OS may fail, which the oracle
`mkdir_failure` decides per path. -/

/-- The directories that exist, plus the OS-level behaviour of creating a
missing one. -/
structure DirWorld where
  dirs : List String
  mkdir_failure : String → Option String

/-- `full_path.mkdir(parents=True, exist_ok=True)`. -/
def mkdir_p (w : DirWorld) (p : String) : Except PyExc DirWorld :=
  if p ∈ w.dirs then .ok w
  else
    match w.mkdir_failure p with
    | some msg => .error ⟨.osError, msg⟩
    | none => .ok { w with dirs := p :: w.dirs }

/-- `base_path_obj / dir_path`. -/
def joinPath (base p : String) : String := base ++ "/" ++ p

/-- The `for dir_path in structure` loop of `create_directory_structure`:
returns `(created_dirs, errors, final world)`, appending to `created_dirs`
after each successful `mkdir` and to `errors` after each failure, and
continuing with the remaining directories either way. -/
def create_dirs_loop (base_path : String) :
    DirWorld → List String → List String × List String × DirWorld
  | w, [] => ([], [], w)
  | w, dir_path :: rest =>
    match mkdir_p w (joinPath base_path dir_path) with
    | .ok w2 =>
      let r := create_dirs_loop base_path w2 rest
      (joinPath base_path dir_path :: r.1, r.2)
    | .error e =>
      let r := create_dirs_loop base_path w rest
      (r.1, ("Failed to create " ++ dir_path ++ ": " ++ e.msg) :: r.2.1, r.2.2)

/-- The `error_details` string raised when some directories failed. -/
def create_error_report (errors created_dirs : List String) : String :=
  "Some directories failed to create:\n" ++ join_with_newlines errors ++
    "\n\nSuccessfully created:\n" ++ join_with_newlines created_dirs

/-- `create_directory_structure(base_path, structure)`: creates the base
(uncaught on failure), runs the loop over every listed subdirectory, and
raises `OSError` with the collected report iff any creation failed. -/
def create_directory_structure (w : DirWorld) (base_path : String)
    (struct_ : List String) : Except PyExc DirWorld :=
  match mkdir_p w base_path with
  | .error e => .error e
  | .ok w1 =>
    let r := create_dirs_loop base_path w1 struct_
    if r.2.1.isEmpty then .ok r.2.2
    else .error ⟨.osError, create_error_report r.2.1 r.1⟩

/-! ## Directory-tree model for `copy_role_directory` (`tools.py`, 230–312) -/

/-- A filesystem node: a file with its content, or a directory with its
named children. -/
inductive FsNode where
  | file (content : String)
  | dir (children : List (String × FsNode))
  deriving Repr

/-- The fixed `excluded_items` set of `copy_role_directory`. -/
def excluded_items : List String := ["export-output.md", ".checklist.json", ".ansible"]

/-- `shutil.copytree(src, dst, ignore=ignore_files)`: at every directory
level the `ignore_files` callback drops exactly the names in
`excluded_items`; `copytree` recurses only into the kept entries. -/
def copytree_ignoring : FsNode → FsNode
  | .file c => .file c
  | .dir children =>
    .dir (((children.filter fun c => decide (c.1 ∉ excluded_items)).attach).map
      fun c => (c.1.1, copytree_ignoring c.1.2))
decreasing_by
  rename_i children
  have h1 : c.1 ∈ children := List.mem_of_mem_filter c.2
  have h2 : sizeOf c.1 < sizeOf children := List.sizeOf_lt_of_mem h1
  have h3 : sizeOf c.1.2 < sizeOf c.1 := by
    obtain ⟨⟨a, b⟩, hc⟩ := c
    simp
  simp only [FsNode.dir.sizeOf_spec]
  omega

/-- The entry of a tree at a relative path (a list of name components);
`HasPath t []` is the tree's root itself. -/
inductive HasPath : FsNode → List String → Prop where
  | here (t : FsNode) : HasPath t []
  | child (n : String) (t : FsNode) (children : List (String × FsNode)) (p : List String)
      (hmem : (n, t) ∈ children) (hp : HasPath t p) :
      HasPath (.dir children) (n :: p)

/-- `any((source_path_obj / d).exists() for d in ["tasks", "meta"])`. -/
def has_role_structure (children : List (String × FsNode)) : Bool :=
  ["tasks", "meta"].any (fun d => (children.map Prod.fst).contains d)

/-- The filesystem as seen by one `copy_role_directory` call: what exists
at the source path and what exists at the destination path. -/
structure CopyWorld where
  source : Option FsNode
  dest : Option FsNode

/-- `copy_role_directory(source_role_path, destination_path)`: validates
the source (missing → `FileNotFoundError`, not a directory →
`ValueError`) before touching the destination, logs a warning (returned
as the final `Bool`) when the source lacks both `tasks/` and `meta/`,
then removes any existing destination and copies the tree with the
exclusion callback. -/
def copy_role_directory (source_role_path destination_path : String)
    (w : CopyWorld) : Except PyExc Unit × CopyWorld × Bool :=
  match w.source with
  | none =>
    (.error ⟨.fileNotFoundError,
      "Source role path does not exist: " ++ source_role_path⟩, w, false)
  | some (.file _) =>
    (.error ⟨.valueError,
      "Source path is not a directory: " ++ source_role_path⟩, w, false)
  | some (.dir children) =>
    let warned := ! has_role_structure children
    (.ok (),
      { w with dest := some (copytree_ignoring (.dir children)) },
      warned)

/-- A role directory whose `.ansible` cache directory contains a file
named `cache`. -/
def ansibleCacheTree : FsNode :=
  .dir [(".ansible", .dir [("cache", .file "state")]),
        ("tasks", .dir [("main.yml", .file "- name: t")])]

/-! ## Python-value model for the config loaders (`tools.py`, 70–185) -/

/-- The top-level shape of a parsed YAML/JSON document, as discriminated
by the loaders' `isinstance` checks; `type_name` is `type(data).__name__`. -/
inductive PyValue where
  | pylist (n : Nat)
  | pydict (n : Nat)
  | pystr (s : String)
  | pyint (n : Int)
  | pybool (b : Bool)
  | pynone
  deriving Repr, DecidableEq

/-- `type(data).__name__`. -/
def PyValue.type_name : PyValue → String
  | .pylist _ => "list"
  | .pydict _ => "dict"
  | .pystr _ => "str"
  | .pyint _ => "int"
  | .pybool _ => "bool"
  | .pynone => "NoneType"

/-- The outcome of `Path(p).exists()` plus `_load_yaml_or_json(p)` at a
given path: absent file, a parse exception (`yaml.YAMLError` /
`json.JSONDecodeError`), any other exception while opening/reading, or a
successfully parsed top-level value. -/
inductive ReadOutcome where
  | absent
  | parse_failure (msg : String)
  | read_failure (msg : String)
  | parsed (v : PyValue)
  deriving Repr, DecidableEq

/-- The hint of the collections shape error, naming the offending flag. -/
def collections_hint : String :=
  "Check that `--collections-file` points to the correct YAML/JSON file. The top-level value must be a list of collection entries."

/-- The hint of the inventory shape error, naming the offending flag. -/
def inventory_hint : String :=
  "Check that `--inventory-file` points to the correct YAML/JSON file. The top-level value must be a mapping (dict) in Ansible inventory format."

/-- `f"Invalid collections file format. File: ... Expected: list, ..."`. -/
def collections_type_error_msg (file_path : String) (v : PyValue) : String :=
  "Invalid collections file format. File: " ++ file_path ++
    ". Expected: list, got: " ++ v.type_name ++ ". Hint: " ++ collections_hint

/-- `f"Invalid inventory file format. File: ... Expected: dict, ..."`. -/
def inventory_type_error_msg (file_path : String) (v : PyValue) : String :=
  "Invalid inventory file format. File: " ++ file_path ++
    ". Expected: dict, got: " ++ v.type_name ++ ". Hint: " ++ inventory_hint

/-- `load_collections_file(file_path)` over a filesystem oracle `w`:
`None` when absent, `ValueError` on parse failure, `RuntimeError` on any
other read failure, and a `TypeError` naming the offending flag when the
parsed top level is not a list; shape checking happens only on the
`parsed` outcome, after the `try` block. -/
def load_collections_file (w : String → ReadOutcome) (file_path : String) :
    Except PyExc (Option PyValue) :=
  match w file_path with
  | .absent => .ok none
  | .parse_failure m =>
    .error ⟨.valueError, "Failed to parse collections file " ++ file_path ++ ": " ++ m⟩
  | .read_failure m =>
    .error ⟨.runtimeError, "Failed to load collections file " ++ file_path ++ ": " ++ m⟩
  | .parsed v =>
    match v with
    | .pylist n => .ok (some (.pylist n))
    | _ => .error ⟨.typeError, collections_type_error_msg file_path v⟩

/-- `load_inventory_file(file_path)` over a filesystem oracle `w`: as the
collections loader, but the required top-level shape is a mapping. -/
def load_inventory_file (w : String → ReadOutcome) (file_path : String) :
    Except PyExc (Option PyValue) :=
  match w file_path with
  | .absent => .ok none
  | .parse_failure m =>
    .error ⟨.valueError, "Failed to parse inventory file " ++ file_path ++ ": " ++ m⟩
  | .read_failure m =>
    .error ⟨.runtimeError, "Failed to load inventory file " ++ file_path ++ ": " ++ m⟩
  | .parsed v =>
    match v with
    | .pydict n => .ok (some (.pydict n))
    | _ => .error ⟨.typeError, inventory_type_error_msg file_path v⟩

/-! ## Path-keyed filesystem model for the incremental `publish_project`

The incremental `publish_project(project_id, module_name, ...)` entry
point is exercised by `tests/publishers/test_publish_commands.py` but its
body is not among the sources available here, so it is modelled from the
spec (§4.4, incremental mode).  Paths are component lists; the filesystem
is an association list from paths to files carrying a modification time
and a content string.  Directories are implicit (a directory exists when
an entry lies beneath it). -/

/-- A path, as its list of components. -/
abbrev FsPath := List String

/-- A file on disk: its `st_mtime` and its content. -/
structure FSFile where
  mtime : Nat
  content : String
  deriving Repr, DecidableEq

/-- The filesystem: an association list from paths to files. -/
abbrev FS := List (FsPath × FSFile)

/-- Lookup of the file at a path. -/
def fsGet : FS → FsPath → Option FSFile
  | [], _ => none
  | e :: rest, p => if e.1 = p then some e.2 else fsGet rest p

/-- Writing a file: replaces any entry at the path. -/
def fsSet (fs : FS) (p : FsPath) (f : FSFile) : FS :=
  (p, f) :: fs.filter (fun e => decide (e.1 ≠ p))

/-- Whether the first path leads the second (component-wise). -/
def leadsWith : List String → List String → Bool
  | [], _ => true
  | _ :: _, [] => false
  | a :: as, b :: bs => decide (a = b) && leadsWith as bs

/-- `shutil.rmtree`: drops every entry at or beneath the given path. -/
def fsRemoveUnder (fs : FS) (pre : FsPath) : FS :=
  fs.filter (fun e => ! leadsWith pre e.1)

/-- The conventional source-role location
`<project_id>/modules/<module_name>/ansible/roles/<module_name>`. -/
def src_role_path (project_id module_name : String) : FsPath :=
  [project_id, "modules", module_name, "ansible", "roles", module_name]

/-- The target project directory `<project_id>/ansible-project`. -/
def project_target (project_id : String) : FsPath :=
  [project_id, "ansible-project"]

/-- The project's `ansible.cfg`. -/
def cfg_path (project_id : String) : FsPath :=
  project_target project_id ++ ["ansible.cfg"]

/-- The copied role's destination `<target>/roles/<module_name>`. -/
def roles_dest (project_id module_name : String) : FsPath :=
  project_target project_id ++ ["roles", module_name]

/-- The wrapper playbook `<target>/playbooks/run_<module_name>.yml`. -/
def wrapper_playbook_path (project_id module_name : String) : FsPath :=
  project_target project_id ++ ["playbooks", "run_" ++ module_name ++ ".yml"]

/-- Modelled from the spec: template rendering is a pure function
(§1 exclusions), so the three global files have fixed rendered bodies. -/
def ansible_cfg_template : String := "[defaults]\nroles_path = ./roles\n"

def collections_template : String := "---\ncollections: []\n"

def inventory_template : String := "---\nall:\n  children:\n    servers:\n"

/-- Modelled from the spec: the per-role wrapper playbook body. -/
def playbook_template (module_name : String) : String :=
  "---\n- name: Run " ++ module_name ++ "\n  hosts: all\n  roles:\n    - " ++
    module_name ++ "\n"

/-- The skeleton written exactly once, when `ansible.cfg` is absent:
`ansible.cfg`, `collections/requirements.yml`, `inventory/hosts.yml`,
all stamped with the current time. -/
def write_skeleton (now : Nat) (fs : FS) (project_id : String) : FS :=
  fsSet
    (fsSet (fsSet fs (cfg_path project_id) ⟨now, ansible_cfg_template⟩)
      (project_target project_id ++ ["collections", "requirements.yml"])
      ⟨now, collections_template⟩)
    (project_target project_id ++ ["inventory", "hosts.yml"])
    ⟨now, inventory_template⟩

/-- Copying the source role's entries beneath the destination, with
`copy_role_directory`'s exclusions, stamping the copies with the current
time and keeping contents. -/
def copy_role_entries (now : Nat) (src_len : Nat) (dest : FsPath) :
    FS → List (FsPath × FSFile) → FS
  | fs, [] => fs
  | fs, e :: rest =>
    let relpath := e.1.drop src_len
    if relpath.any (fun n => decide (n ∈ excluded_items)) then
      copy_role_entries now src_len dest fs rest
    else
      copy_role_entries now src_len dest
        (fsSet fs (dest ++ relpath) ⟨now, e.2.content⟩) rest

/-- Modelled from the spec: incremental
`publish_project(project_id, module_name)` (§4.4).  Locates the source
role at the convention path (not-found error if absent), generates the
full skeleton only when `ansible.cfg` is absent in the target, then
copies the role (removing any previous copy) and writes the wrapper
playbook, returning the project path.  The final existence verification
of the role directory and playbook always passes in this model since the
copy and write have just created them. -/
def publish_project (now : Nat) (fs : FS) (project_id module_name : String) :
    Except PyExc (FS × FsPath) :=
  if (fs.filter (fun e => leadsWith (src_role_path project_id module_name) e.1)).isEmpty
  then
    .error ⟨.fileNotFoundError, "Source role directory not found"⟩
  else
    .ok
      (fsSet
        (copy_role_entries now (src_role_path project_id module_name).length
          (roles_dest project_id module_name)
          (fsRemoveUnder
            (if fsGet fs (cfg_path project_id) = none then
              write_skeleton now fs project_id
            else fs)
            (roles_dest project_id module_name))
          (fs.filter (fun e => leadsWith (src_role_path project_id module_name) e.1)))
        (wrapper_playbook_path project_id module_name)
        ⟨now, playbook_template module_name⟩,
      project_target project_id)

/-! ## Theorems about `sync_to_aap` -/

/-- The three outcome shapes are pairwise exclusive, so any result
satisfying one of them satisfies exactly one. -/
theorem shapes_pairwise_exclusive (r : AAPSyncResult)
    (h : disabled_shape r ∨ errored_shape r ∨ succeeded_shape r) :
    exactly_one (disabled_shape r) (errored_shape r) (succeeded_shape r) := by
  unfold exactly_one disabled_shape errored_shape succeeded_shape at *
  refine ⟨h, ?_, ?_, ?_⟩ <;> rintro ⟨h1, h2⟩ <;> simp_all

/-- Enumeration of the possible returns of the main `try` block of
`sync_to_aap`: the failed assertion, a client exception, the
missing-project-id error result, or the populated success result. -/
theorem sync_try_block_cases (deps : AAPDeps) (cfg : AAPConfig)
    (pn url branch : String) :
    (cfg.organization_name = "" ∧
      (sync_try_block deps cfg pn url branch).1 =
        .error ⟨.assertionError, "cfg.organization_name"⟩) ∨
    (∃ e, (sync_try_block deps cfg pn url branch).1 = .error e ∧
      client_raised deps e) ∨
    ((sync_try_block deps cfg pn url branch).1 =
      .ok (AAPSyncResult.from_error "AAP API did not return a project id")) ∨
    (∃ (pid : Int) (upd : UpdateRepr), pid ≠ 0 ∧
      (sync_try_block deps cfg pn url branch).1 =
        .ok { enabled := true
              project_name := pn
              project_id := some pid
              project_update_id := upd.id
              project_update_status := upd.status }) := by
  by_cases horg : cfg.organization_name = ""
  · exact .inl ⟨horg, by simp [sync_try_block, horg]⟩
  · cases hf : deps.find_organization_id cfg.organization_name with
    | error e =>
      refine .inr (.inl ⟨e, ?_, .inl ⟨_, hf⟩⟩)
      simp [sync_try_block, horg, hf]
    | ok org_id =>
      cases hu : deps.upsert_project org_id pn url branch
          (deps.infer_aap_project_description url branch)
          deps.settings_scm_credential_id with
      | error e =>
        refine .inr (.inl ⟨e, ?_, .inr (.inl ⟨_, _, _, _, _, _, hu⟩)⟩)
        simp [sync_try_block, horg, hf, hu]
      | ok project =>
        by_cases hid : (project.id.getD 0 : Int) = 0
        · refine .inr (.inr (.inl ?_))
          simp [sync_try_block, horg, hf, hu, hid]
        · cases hs : deps.start_project_update (project.id.getD 0) with
          | error e =>
            refine .inr (.inl ⟨e, ?_, .inr (.inr ⟨_, hs⟩)⟩)
            simp [sync_try_block, horg, hf, hu, hid, hs]
          | ok upd =>
            refine .inr (.inr (.inr ⟨project.id.getD 0, upd, hid, ?_⟩))
            simp [sync_try_block, horg, hf, hu, hid, hs]

/-- The branch of `sync_to_aap` taken once `from_env` returned a config. -/
theorem sync_to_aap_ok_env (deps : AAPDeps) (cfg : AAPConfig)
    (url branch : String) (h : deps.from_env = .ok cfg) :
    sync_to_aap deps url branch =
      (match (sync_try_block deps cfg (sync_project_name deps url) url branch).1 with
        | .ok r => .ok r
        | .error e =>
          if caught_by_sync e then .ok (AAPSyncResult.from_error e.msg) else .error e,
        (sync_try_block deps cfg (sync_project_name deps url) url branch).2) := by
  simp [sync_to_aap, h]

/-- The branch of `sync_to_aap` taken when `from_env` raised. -/
theorem sync_to_aap_raises_env (deps : AAPDeps) (url branch : String)
    (e : PyExc) (h : deps.from_env = .raises e) :
    sync_to_aap deps url branch =
      (if e.kind = PyExcKind.valueError then .ok (AAPSyncResult.from_error e.msg)
        else .error e, []) := by
  simp [sync_to_aap, h]

/-- The branch of `sync_to_aap` taken when `from_env` returned `None`. -/
theorem sync_to_aap_disabled_env (deps : AAPDeps) (url branch : String)
    (h : deps.from_env = .disabled) :
    sync_to_aap deps url branch = (.ok AAPSyncResult.disabled, []) := by
  simp [sync_to_aap, h]

/-- C1: every value actually returned by `sync_to_aap` satisfies exactly
one of the three outcome shapes — disabled, errored (non-empty `error`),
or succeeded (empty `error`, `project_id` set) — given that raised
exceptions carry non-empty messages. -/
theorem sync_result_exclusive (deps : AAPDeps) (url branch : String)
    (r : AAPSyncResult) (calls : List NetCall)
    (hres : sync_to_aap deps url branch = (.ok r, calls))
    (henv : ∀ e, deps.from_env = .raises e → e.msg ≠ "")
    (hfind : ∀ n e, deps.find_organization_id n = .error e → e.msg ≠ "")
    (hups : ∀ o n u b d c e, deps.upsert_project o n u b d c = .error e → e.msg ≠ "")
    (hupd : ∀ p e, deps.start_project_update p = .error e → e.msg ≠ "") :
    exactly_one (disabled_shape r) (errored_shape r) (succeeded_shape r) := by
  apply shapes_pairwise_exclusive
  cases hfe : deps.from_env with
  | raises e =>
    rw [sync_to_aap_raises_env deps url branch e hfe] at hres
    by_cases hk : e.kind = PyExcKind.valueError
    · rw [if_pos hk] at hres
      have hr : AAPSyncResult.from_error e.msg = r := by
        have h1 := congrArg Prod.fst hres
        simpa using h1
      subst hr
      exact .inr (.inl ⟨rfl, henv e hfe⟩)
    · rw [if_neg hk] at hres
      have h1 := congrArg Prod.fst hres
      simp at h1
  | disabled =>
    rw [sync_to_aap_disabled_env deps url branch hfe] at hres
    have hr : AAPSyncResult.disabled = r := by
      have h1 := congrArg Prod.fst hres
      simpa using h1
    subst hr
    exact .inl rfl
  | ok cfg =>
    rw [sync_to_aap_ok_env deps cfg url branch hfe] at hres
    rcases sync_try_block_cases deps cfg (sync_project_name deps url) url branch with
      ⟨horg, he⟩ | ⟨e, he, hcl⟩ | he | ⟨pid, upd, hpid, he⟩
    · rw [he] at hres
      have h1 := congrArg Prod.fst hres
      simp [caught_by_sync] at h1
    · rw [he] at hres
      by_cases hc : caught_by_sync e = true
      · have hr : AAPSyncResult.from_error e.msg = r := by
          have h1 := congrArg Prod.fst hres
          simpa [hc] using h1
        subst hr
        refine .inr (.inl ⟨rfl, ?_⟩)
        rcases hcl with ⟨n, hn⟩ | ⟨o, n, u, b, d, c, hu⟩ | ⟨p, hp⟩
        · exact hfind n e hn
        · exact hups o n u b d c e hu
        · exact hupd p e hp
      · have h1 := congrArg Prod.fst hres
        simp [hc] at h1
    · rw [he] at hres
      have hr : AAPSyncResult.from_error "AAP API did not return a project id" = r := by
        have h1 := congrArg Prod.fst hres
        simpa using h1
      subst hr
      exact .inr (.inl ⟨rfl, by decide⟩)
    · rw [he] at hres
      have hr : ({ enabled := true
                   project_name := sync_project_name deps url
                   project_id := some pid
                   project_update_id := upd.id
                   project_update_status := upd.status } : AAPSyncResult) = r := by
        have h1 := congrArg Prod.fst hres
        simpa using h1
      subst hr
      exact .inr (.inr ⟨rfl, rfl, by simp⟩)

/-- C1 witness: the exclusivity theorem applied to the all-success oracle. -/
theorem sync_result_exclusive_witness :
    exactly_one
      (disabled_shape { enabled := true
                        project_name := "repo"
                        project_id := some 42
                        project_update_id := some 100
                        project_update_status := "pending" })
      (errored_shape { enabled := true
                       project_name := "repo"
                       project_id := some 42
                       project_update_id := some 100
                       project_update_status := "pending" })
      (succeeded_shape { enabled := true
                         project_name := "repo"
                         project_id := some 42
                         project_update_id := some 100
                         project_update_status := "pending" }) :=
  sync_result_exclusive oracleDeps "https://example.com/r.git" "main" _
    [.find_organization_id, .upsert_project, .start_project_update] rfl
    (fun _ h => FromEnvOutcome.noConfusion h)
    (fun _ _ h => Except.noConfusion h)
    (fun _ _ _ _ _ _ _ h => Except.noConfusion h)
    (fun _ _ h => Except.noConfusion h)

/-- C2: `sync_to_aap` never raises — provided `from_env` raises only
`ValueError`, a returned config has a non-empty organization name, and
the client raises only the caught exception classes, every invocation
returns a result rather than propagating an exception. -/
theorem sync_to_aap_never_raises (deps : AAPDeps) (url branch : String)
    (henv : ∀ e, deps.from_env = .raises e → e.kind = PyExcKind.valueError)
    (horg : ∀ cfg, deps.from_env = .ok cfg → cfg.organization_name ≠ "")
    (hfind : ∀ n e, deps.find_organization_id n = .error e → caught_by_sync e = true)
    (hups : ∀ o n u b d c e, deps.upsert_project o n u b d c = .error e →
      caught_by_sync e = true)
    (hupd : ∀ p e, deps.start_project_update p = .error e → caught_by_sync e = true) :
    ∃ r, (sync_to_aap deps url branch).1 = .ok r := by
  cases hfe : deps.from_env with
  | raises e =>
    refine ⟨AAPSyncResult.from_error e.msg, ?_⟩
    rw [sync_to_aap_raises_env deps url branch e hfe]
    simp [henv e hfe]
  | disabled =>
    exact ⟨AAPSyncResult.disabled, by rw [sync_to_aap_disabled_env deps url branch hfe]⟩
  | ok cfg =>
    rw [sync_to_aap_ok_env deps cfg url branch hfe]
    rcases sync_try_block_cases deps cfg (sync_project_name deps url) url branch with
      ⟨h0, _⟩ | ⟨e, he, hcl⟩ | he | ⟨pid, upd, hpid, he⟩
    · exact absurd h0 (horg cfg hfe)
    · have hc : caught_by_sync e = true := by
        rcases hcl with ⟨n, hn⟩ | ⟨o, n, u, b, d, c, hu⟩ | ⟨p, hp⟩
        · exact hfind n e hn
        · exact hups o n u b d c e hu
        · exact hupd p e hp
      exact ⟨AAPSyncResult.from_error e.msg, by rw [he]; simp [hc]⟩
    · exact ⟨_, by rw [he]⟩
    · exact ⟨_, by rw [he]⟩

/-- C2 witness: the no-raise theorem applied to the all-success oracle. -/
theorem sync_to_aap_never_raises_witness :
    ∃ r, (sync_to_aap oracleDeps "https://example.com/r.git" "main").1 = .ok r :=
  sync_to_aap_never_raises oracleDeps "https://example.com/r.git" "main"
    (fun _ h => FromEnvOutcome.noConfusion h)
    (fun cfg h => by injection h with h1; subst h1; decide)
    (fun _ _ h => Except.noConfusion h)
    (fun _ _ _ _ _ _ _ h => Except.noConfusion h)
    (fun _ _ h => Except.noConfusion h)

/-- C4: when the base-URL environment variable is not set (`from_env`
returned `None`), `sync_to_aap` returns the disabled result immediately,
having made no network call, for every url/branch and client behaviour. -/
theorem sync_to_aap_disabled_immediate (deps : AAPDeps) (url branch : String)
    (h : deps.from_env = .disabled) :
    sync_to_aap deps url branch = (.ok AAPSyncResult.disabled, []) ∧
    AAPSyncResult.disabled.enabled = false := by
  exact ⟨sync_to_aap_disabled_env deps url branch h, rfl⟩

/-- C4 witness: the disabled theorem applied to the unset-base-URL oracle. -/
theorem sync_to_aap_disabled_immediate_witness :
    sync_to_aap oracleDepsDisabled "https://example.com/r.git" "main" =
      (.ok AAPSyncResult.disabled, []) ∧
    AAPSyncResult.disabled.enabled = false :=
  sync_to_aap_disabled_immediate oracleDepsDisabled "https://example.com/r.git" "main" rfl

/-- C10: when enabled and the upsert succeeds without a truthy `id` in
the response, `sync_to_aap` returns the fixed errored result and never
calls `start_project_update` in that invocation. -/
theorem sync_missing_project_id (deps : AAPDeps) (url branch : String)
    (cfg : AAPConfig) (org_id : Int) (project : ProjectRepr)
    (h1 : deps.from_env = .ok cfg)
    (h2 : cfg.organization_name ≠ "")
    (h3 : deps.find_organization_id cfg.organization_name = .ok org_id)
    (h4 : deps.upsert_project org_id (sync_project_name deps url) url branch
      (deps.infer_aap_project_description url branch)
      deps.settings_scm_credential_id = .ok project)
    (h5 : project.id.getD 0 = 0) :
    (sync_to_aap deps url branch).1 =
      .ok (AAPSyncResult.from_error "AAP API did not return a project id") ∧
    NetCall.start_project_update ∉ (sync_to_aap deps url branch).2 := by
  have hcomp : sync_to_aap deps url branch =
      (.ok (AAPSyncResult.from_error "AAP API did not return a project id"),
        [NetCall.find_organization_id, NetCall.upsert_project]) := by
    rw [sync_to_aap_ok_env deps cfg url branch h1]
    simp [sync_try_block, h2, h3, h4, h5]
  rw [hcomp]
  exact ⟨rfl, by decide⟩

/-- C10 witness: the missing-id theorem applied to the oracle whose upsert
response has no `id` field. -/
theorem sync_missing_project_id_witness :
    (sync_to_aap oracleDepsNoId "https://example.com/r.git" "main").1 =
      .ok (AAPSyncResult.from_error "AAP API did not return a project id") ∧
    NetCall.start_project_update ∉
      (sync_to_aap oracleDepsNoId "https://example.com/r.git" "main").2 :=
  sync_missing_project_id oracleDepsNoId "https://example.com/r.git" "main"
    ⟨"Default"⟩ 7 ⟨none⟩ rfl (by decide) rfl rfl rfl

/-! ## Theorems about `verify_files_exist` -/

/-- Every element of the joined list occurs verbatim inside the join. -/
theorem join_with_newlines_mem (l : List String) (s : String) (h : s ∈ l) :
    ∃ pre post, join_with_newlines l = pre ++ s ++ post := by
  induction l with
  | nil => cases h
  | cons a t ih =>
    cases t with
    | nil =>
      rcases List.mem_singleton.mp h with rfl
      exact ⟨"", "", by rw [String.empty_append, String.append_empty, join_with_newlines]⟩
    | cons b u =>
      rcases List.mem_cons.mp h with rfl | hmem
      · refine ⟨"", "\n" ++ join_with_newlines (b :: u), ?_⟩
        rw [join_with_newlines]
        simp [String.append_assoc, String.empty_append]
      · obtain ⟨pre, post, hj⟩ := ih hmem
        refine ⟨a ++ "\n" ++ pre, post, ?_⟩
        rw [join_with_newlines, hj]
        simp [String.append_assoc]

/-- Every missing file is itemized verbatim in the raised message. -/
theorem missing_message_itemizes (missing_files : List String) (f : String)
    (h : f ∈ missing_files) :
    ∃ pre post, missing_message missing_files = pre ++ ("  - " ++ f) ++ post := by
  obtain ⟨pre, post, hj⟩ :=
    join_with_newlines_mem (missing_files.map (fun g => "  - " ++ g)) ("  - " ++ f)
      (List.mem_map_of_mem _ h)
  refine ⟨toString missing_files.length ++ " files are missing:\n" ++ pre, post, ?_⟩
  rw [missing_message, hj]
  simp [String.append_assoc]

/-- C5: `verify_files_exist` returns normally iff every listed path
exists; when at least one is missing it raises a `FileNotFoundError`
built from the complete list of missing entries, in which every missing
path is itemized verbatim. -/
theorem verify_files_exist_spec (fs file_paths : List String) :
    (verify_files_exist fs file_paths = .ok () ↔ ∀ p ∈ file_paths, p ∈ fs) ∧
    (∀ p ∈ file_paths, p ∉ fs →
      (verify_files_exist fs file_paths =
        .error ⟨.fileNotFoundError,
          missing_message (file_paths.filter (fun q => decide (q ∉ fs)))⟩ ∧
      ∃ pre post,
        missing_message (file_paths.filter (fun q => decide (q ∉ fs))) =
          pre ++ ("  - " ++ p) ++ post)) := by
  have heq : verify_files_exist fs file_paths =
      if (file_paths.filter (fun q => decide (q ∉ fs))).isEmpty then .ok ()
      else .error ⟨.fileNotFoundError,
        missing_message (file_paths.filter (fun q => decide (q ∉ fs)))⟩ := rfl
  constructor
  · constructor
    · intro hok p hp
      by_contra hmem
      have hin : p ∈ file_paths.filter (fun q => decide (q ∉ fs)) :=
        List.mem_filter.mpr ⟨hp, by simpa using hmem⟩
      have hne : ¬ (file_paths.filter (fun q => decide (q ∉ fs))).isEmpty = true := by
        intro he
        rw [List.isEmpty_iff] at he
        rw [he] at hin
        cases hin
      rw [heq, if_neg hne] at hok
      cases hok
    · intro hall
      have he : (file_paths.filter (fun q => decide (q ∉ fs))) = [] := by
        rw [List.filter_eq_nil_iff]
        intro a ha
        simpa using hall a ha
      rw [heq, if_pos (by rw [List.isEmpty_iff]; exact he)]
  · intro p hp hmem
    have hin : p ∈ file_paths.filter (fun q => decide (q ∉ fs)) :=
      List.mem_filter.mpr ⟨hp, by simpa using hmem⟩
    have hne : ¬ (file_paths.filter (fun q => decide (q ∉ fs))).isEmpty = true := by
      intro he
      rw [List.isEmpty_iff] at he
      rw [he] at hin
      cases hin
    refine ⟨?_, missing_message_itemizes _ p hin⟩
    rw [heq, if_neg hne]

/-- C5 witness: one existing path, one missing path. -/
theorem verify_files_exist_spec_witness :
    (verify_files_exist ["roles/a"] ["roles/a", "roles/b"] = .ok () ↔
      ∀ p ∈ ["roles/a", "roles/b"], p ∈ ["roles/a"]) ∧
    (∀ p ∈ ["roles/a", "roles/b"], p ∉ ["roles/a"] →
      (verify_files_exist ["roles/a"] ["roles/a", "roles/b"] =
        .error ⟨.fileNotFoundError,
          missing_message (["roles/a", "roles/b"].filter
            (fun q => decide (q ∉ ["roles/a"])))⟩ ∧
      ∃ pre post,
        missing_message (["roles/a", "roles/b"].filter
          (fun q => decide (q ∉ ["roles/a"]))) =
          pre ++ ("  - " ++ p) ++ post)) :=
  verify_files_exist_spec ["roles/a"] ["roles/a", "roles/b"]

/-! ## Theorems about `create_directory_structure` -/

/-- `mkdir -p` only adds directories. -/
theorem mkdir_p_mono (w : DirWorld) (p : String) (w2 : DirWorld)
    (h : mkdir_p w p = .ok w2) : ∀ q ∈ w.dirs, q ∈ w2.dirs := by
  intro q hq
  rw [mkdir_p] at h
  by_cases hin : p ∈ w.dirs
  · rw [if_pos hin] at h
    cases h
    exact hq
  · rw [if_neg hin] at h
    cases hf : w.mkdir_failure p with
    | some msg => rw [hf] at h; cases h
    | none =>
      rw [hf] at h
      cases h
      exact List.mem_cons_of_mem _ hq

/-- Every listed directory is attempted: each contributes either its full
path to `created_dirs` or its failure message to `errors`. -/
theorem create_dirs_loop_attempts_all (base : String) (w : DirWorld)
    (l : List String) :
    ∀ d ∈ l, joinPath base d ∈ (create_dirs_loop base w l).1 ∨
      ∃ m, ("Failed to create " ++ d ++ ": " ++ m) ∈ (create_dirs_loop base w l).2.1 := by
  induction l generalizing w with
  | nil => intro d hd; cases hd
  | cons x rest ih =>
    intro d hd
    rw [create_dirs_loop]
    cases hmk : mkdir_p w (joinPath base x) with
    | ok w2 =>
      rcases List.mem_cons.mp hd with rfl | hdr
      · exact .inl (List.mem_cons_self _ _)
      · rcases ih w2 d hdr with h1 | ⟨m, h2⟩
        · exact .inl (List.mem_cons_of_mem _ h1)
        · exact .inr ⟨m, h2⟩
    | error e =>
      rcases List.mem_cons.mp hd with rfl | hdr
      · exact .inr ⟨e.msg, List.mem_cons_self _ _⟩
      · rcases ih w d hdr with h1 | ⟨m, h2⟩
        · exact .inl h1
        · exact .inr ⟨m, List.mem_cons_of_mem _ h2⟩

/-- Each listed directory is recorded exactly once across the two lists. -/
theorem create_dirs_loop_length (base : String) (w : DirWorld) (l : List String) :
    (create_dirs_loop base w l).1.length + (create_dirs_loop base w l).2.1.length =
      l.length := by
  induction l generalizing w with
  | nil => rfl
  | cons x rest ih =>
    cases hmk : mkdir_p w (joinPath base x) with
    | ok w2 =>
      have h := ih w2
      simp only [create_dirs_loop, hmk, List.length_cons]
      omega
    | error e =>
      have h := ih w
      simp only [create_dirs_loop, hmk, List.length_cons]
      omega

/-- A directory already existing when its turn comes is recorded as
created (`exist_ok=True`), never as an error. -/
theorem create_dirs_loop_preexisting (base : String) (w : DirWorld)
    (l : List String) :
    ∀ d ∈ l, joinPath base d ∈ w.dirs →
      joinPath base d ∈ (create_dirs_loop base w l).1 := by
  induction l generalizing w with
  | nil => intro d hd; cases hd
  | cons x rest ih =>
    intro d hd hpre
    rw [create_dirs_loop]
    cases hmk : mkdir_p w (joinPath base x) with
    | ok w2 =>
      rcases List.mem_cons.mp hd with rfl | hdr
      · exact List.mem_cons_self _ _
      · exact List.mem_cons_of_mem _ (ih w2 d hdr (mkdir_p_mono w _ w2 hmk _ hpre))
    | error e =>
      rcases List.mem_cons.mp hd with rfl | hdr
      · exfalso
        rw [mkdir_p, if_pos hpre] at hmk
        cases hmk
      · exact ih w d hdr hpre

/-- C8: given the base directory is created (or pre-exists),
`create_directory_structure` treats pre-existing subdirectories as
success, attempts every listed subdirectory even after a failure,
raises iff at least one creation failed, and the raised report is built
from both the failed and the successfully created lists. -/
theorem create_directory_structure_spec (w : DirWorld) (base_path : String)
    (struct_ : List String) (w1 : DirWorld)
    (hbase : mkdir_p w base_path = .ok w1) :
    ((∃ w2, create_directory_structure w base_path struct_ = .ok w2) ↔
      (create_dirs_loop base_path w1 struct_).2.1 = []) ∧
    ((create_dirs_loop base_path w1 struct_).2.1 ≠ [] →
      create_directory_structure w base_path struct_ =
        .error ⟨.osError,
          create_error_report (create_dirs_loop base_path w1 struct_).2.1
            (create_dirs_loop base_path w1 struct_).1⟩) ∧
    ((create_dirs_loop base_path w1 struct_).1.length +
      (create_dirs_loop base_path w1 struct_).2.1.length = struct_.length) ∧
    (∀ d ∈ struct_, joinPath base_path d ∈ (create_dirs_loop base_path w1 struct_).1 ∨
      ∃ m, ("Failed to create " ++ d ++ ": " ++ m) ∈
        (create_dirs_loop base_path w1 struct_).2.1) ∧
    (∀ d ∈ struct_, joinPath base_path d ∈ w1.dirs →
      joinPath base_path d ∈ (create_dirs_loop base_path w1 struct_).1) := by
  have heq : create_directory_structure w base_path struct_ =
      if (create_dirs_loop base_path w1 struct_).2.1.isEmpty then
        .ok (create_dirs_loop base_path w1 struct_).2.2
      else .error ⟨.osError,
        create_error_report (create_dirs_loop base_path w1 struct_).2.1
          (create_dirs_loop base_path w1 struct_).1⟩ := by
    simp only [create_directory_structure, hbase]
  refine ⟨?_, ?_, create_dirs_loop_length base_path w1 struct_,
    create_dirs_loop_attempts_all base_path w1 struct_,
    create_dirs_loop_preexisting base_path w1 struct_⟩
  · constructor
    · rintro ⟨w2, hok⟩
      rw [heq] at hok
      by_cases he : (create_dirs_loop base_path w1 struct_).2.1.isEmpty = true
      · exact List.isEmpty_iff.mp he
      · rw [if_neg he] at hok
        cases hok
    · intro he
      refine ⟨(create_dirs_loop base_path w1 struct_).2.2, ?_⟩
      rw [heq, if_pos (by rw [List.isEmpty_iff]; exact he)]
  · intro hne
    rw [heq, if_neg (by rw [List.isEmpty_iff]; exact hne)]

/-- C8 witness: base pre-exists, one subdirectory pre-exists, one is new. -/
theorem create_directory_structure_spec_witness :
    ((∃ w2, create_directory_structure
        ⟨["base", "base/roles"], fun _ => none⟩ "base" ["roles", "playbooks"] = .ok w2) ↔
      (create_dirs_loop "base" ⟨["base", "base/roles"], fun _ => none⟩
        ["roles", "playbooks"]).2.1 = []) ∧
    ((create_dirs_loop "base" ⟨["base", "base/roles"], fun _ => none⟩
        ["roles", "playbooks"]).2.1 ≠ [] →
      create_directory_structure ⟨["base", "base/roles"], fun _ => none⟩ "base"
          ["roles", "playbooks"] =
        .error ⟨.osError,
          create_error_report
            (create_dirs_loop "base" ⟨["base", "base/roles"], fun _ => none⟩
              ["roles", "playbooks"]).2.1
            (create_dirs_loop "base" ⟨["base", "base/roles"], fun _ => none⟩
              ["roles", "playbooks"]).1⟩) ∧
    ((create_dirs_loop "base" ⟨["base", "base/roles"], fun _ => none⟩
        ["roles", "playbooks"]).1.length +
      (create_dirs_loop "base" ⟨["base", "base/roles"], fun _ => none⟩
        ["roles", "playbooks"]).2.1.length = (["roles", "playbooks"] : List String).length) ∧
    (∀ d ∈ (["roles", "playbooks"] : List String),
      joinPath "base" d ∈ (create_dirs_loop "base"
        ⟨["base", "base/roles"], fun _ => none⟩ ["roles", "playbooks"]).1 ∨
      ∃ m, ("Failed to create " ++ d ++ ": " ++ m) ∈
        (create_dirs_loop "base" ⟨["base", "base/roles"], fun _ => none⟩
          ["roles", "playbooks"]).2.1) ∧
    (∀ d ∈ (["roles", "playbooks"] : List String),
      joinPath "base" d ∈ (⟨["base", "base/roles"], fun _ => none⟩ : DirWorld).dirs →
      joinPath "base" d ∈ (create_dirs_loop "base"
        ⟨["base", "base/roles"], fun _ => none⟩ ["roles", "playbooks"]).1) :=
  create_directory_structure_spec ⟨["base", "base/roles"], fun _ => none⟩
    "base" ["roles", "playbooks"] ⟨["base", "base/roles"], fun _ => none⟩ rfl

/-! ## Theorems about `copy_role_directory` -/

theorem copytree_ignoring_file (c : String) :
    copytree_ignoring (.file c) = .file c := by
  rw [copytree_ignoring]

theorem copytree_ignoring_dir (children : List (String × FsNode)) :
    copytree_ignoring (.dir children) =
      .dir (((children.filter fun c => decide (c.1 ∉ excluded_items)).attach).map
        fun c => (c.1.1, copytree_ignoring c.1.2)) := by
  rw [copytree_ignoring]

/-- Membership in the copied children of a directory. -/
theorem mem_copytree_children (children : List (String × FsNode)) (n : String)
    (s : FsNode) :
    (n, s) ∈ (((children.filter fun c => decide (c.1 ∉ excluded_items)).attach).map
        fun c => (c.1.1, copytree_ignoring c.1.2)) ↔
      ∃ t, (n, t) ∈ children ∧ n ∉ excluded_items ∧ s = copytree_ignoring t := by
  constructor
  · intro h
    rcases List.mem_map.mp h with ⟨⟨⟨n', t⟩, hmem⟩, _, heq⟩
    obtain ⟨h1, h2⟩ := Prod.mk.injEq .. ▸ heq
    subst h1
    refine ⟨t, ?_, ?_, h2.symm⟩
    · exact List.mem_of_mem_filter hmem
    · have := List.of_mem_filter hmem
      simpa using this
  · rintro ⟨t, hmem, hnot, rfl⟩
    exact List.mem_map.mpr
      ⟨⟨(n, t), List.mem_filter.mpr ⟨hmem, by simpa using hnot⟩⟩,
        List.mem_attach _ _, rfl⟩

/-- The copied tree contains exactly the entries of the source none of
whose path components is an excluded name. -/
theorem copytree_hasPath (p : List String) (t : FsNode) :
    HasPath (copytree_ignoring t) p ↔
      (HasPath t p ∧ ∀ n ∈ p, n ∉ excluded_items) := by
  induction p generalizing t with
  | nil =>
    constructor
    · intro _
      exact ⟨.here t, by intro n hn; cases hn⟩
    · intro _
      exact .here _
  | cons n rest ih =>
    constructor
    · intro h
      cases t with
      | file c =>
        rw [copytree_ignoring_file] at h
        cases h
      | dir children =>
        rw [copytree_ignoring_dir] at h
        cases h with
        | child _ s _ _ hmem hp =>
          rcases (mem_copytree_children children n s).mp hmem with ⟨t', hmem', hnot, rfl⟩
          obtain ⟨hp', hall⟩ := (ih t').mp hp
          refine ⟨.child n t' children rest hmem' hp', ?_⟩
          intro m hm
          rcases List.mem_cons.mp hm with rfl | hm'
          · exact hnot
          · exact hall m hm'
    · rintro ⟨h, hall⟩
      cases h with
      | child _ t' children _ hmem hp =>
        rw [copytree_ignoring_dir]
        refine HasPath.child n (copytree_ignoring t') _ rest ?_ ?_
        · exact (mem_copytree_children children n _).mpr
            ⟨t', hmem, hall n (List.mem_cons_self _ _), rfl⟩
        · exact (ih t').mpr ⟨hp, fun m hm => hall m (List.mem_cons_of_mem _ hm)⟩

/-- C6 counterexample: a file named `cache` inside the source's
`.ansible` directory is an entry of the source not named
`export-output.md`, `.checklist.json` or `.ansible`, yet it is absent
from the destination written by `copy_role_directory`: "every other file
and directory of the source is present" fails. -/
theorem copy_role_directory_exclusion_counterexample :
    HasPath ansibleCacheTree [".ansible", "cache"] ∧
    "cache" ∉ excluded_items ∧
    (copy_role_directory "src-role" "dst-role"
        ⟨some ansibleCacheTree, none⟩).2.1.dest =
      some (copytree_ignoring ansibleCacheTree) ∧
    ¬ HasPath (copytree_ignoring ansibleCacheTree) [".ansible", "cache"] := by
  refine ⟨?_, by decide, rfl, ?_⟩
  · refine HasPath.child _ _ _ _ (List.mem_cons_self _ _) ?_
    exact HasPath.child _ _ _ _ (List.mem_cons_self _ _) (.here _)
  · intro h
    obtain ⟨_, hall⟩ := (copytree_hasPath _ _).mp h
    exact absurd (by decide : ".ansible" ∈ excluded_items)
      (hall ".ansible" (List.mem_cons_self _ _))

/-- C6 (amended): for every role copy of a source directory, an entry of
the source is present in the destination copy iff no component of its
path is one of the excluded names; in particular entries named
`export-output.md`, `.checklist.json` or `.ansible` anywhere, and
everything beneath them, are absent, and all other reachable entries are
preserved. -/
theorem copy_role_directory_exclusion (src dst : String) (w : CopyWorld)
    (children : List (String × FsNode)) (h : w.source = some (.dir children)) :
    ∃ destTree, (copy_role_directory src dst w).2.1.dest = some destTree ∧
      ∀ p, HasPath destTree p ↔
        (HasPath (.dir children) p ∧ ∀ n ∈ p, n ∉ excluded_items) := by
  obtain ⟨s, d⟩ := w
  simp only at h
  subst h
  exact ⟨copytree_ignoring (.dir children), rfl, fun p => copytree_hasPath p _⟩

/-- C6 witness: a one-file role with no excluded entries. -/
theorem copy_role_directory_exclusion_witness :
    ∃ destTree,
      (copy_role_directory "src-role" "dst-role"
          ⟨some (.dir [("tasks", FsNode.file "x")]), none⟩).2.1.dest = some destTree ∧
      ∀ p, HasPath destTree p ↔
        (HasPath (.dir [("tasks", FsNode.file "x")]) p ∧
          ∀ n ∈ p, n ∉ excluded_items) :=
  copy_role_directory_exclusion "src-role" "dst-role"
    ⟨some (.dir [("tasks", FsNode.file "x")]), none⟩ [("tasks", FsNode.file "x")] rfl

/-- C9: `copy_role_directory` raises `FileNotFoundError` on a missing
source and `ValueError` on a non-directory source, in both cases
returning the world unchanged (the existing destination untouched); a
directory source lacking both `tasks/` and `meta/` only warns and the
copy still completes. -/
theorem copy_role_directory_fails_fast (src dst : String) (w : CopyWorld) :
    (w.source = none →
      copy_role_directory src dst w =
        (.error ⟨.fileNotFoundError, "Source role path does not exist: " ++ src⟩,
          w, false)) ∧
    (∀ c, w.source = some (.file c) →
      copy_role_directory src dst w =
        (.error ⟨.valueError, "Source path is not a directory: " ++ src⟩,
          w, false)) ∧
    (∀ children, w.source = some (.dir children) →
      has_role_structure children = false →
      (copy_role_directory src dst w).1 = .ok () ∧
      (copy_role_directory src dst w).2.2 = true ∧
      (copy_role_directory src dst w).2.1.dest =
        some (copytree_ignoring (.dir children))) := by
  obtain ⟨s, d⟩ := w
  refine ⟨?_, ?_, ?_⟩
  · intro h
    simp only at h
    subst h
    rfl
  · intro c h
    simp only at h
    subst h
    rfl
  · intro children h hwarn
    simp only at h
    subst h
    refine ⟨rfl, ?_, rfl⟩
    simp [copy_role_directory, hwarn]

/-- C9 witness: a missing source next to an existing destination. -/
theorem copy_role_directory_fails_fast_witness :
    ((⟨none, some (FsNode.file "old")⟩ : CopyWorld).source = none →
      copy_role_directory "s" "d" ⟨none, some (FsNode.file "old")⟩ =
        (.error ⟨.fileNotFoundError, "Source role path does not exist: " ++ "s"⟩,
          ⟨none, some (FsNode.file "old")⟩, false)) ∧
    (∀ c, (⟨none, some (FsNode.file "old")⟩ : CopyWorld).source = some (.file c) →
      copy_role_directory "s" "d" ⟨none, some (FsNode.file "old")⟩ =
        (.error ⟨.valueError, "Source path is not a directory: " ++ "s"⟩,
          ⟨none, some (FsNode.file "old")⟩, false)) ∧
    (∀ children, (⟨none, some (FsNode.file "old")⟩ : CopyWorld).source =
        some (.dir children) →
      has_role_structure children = false →
      (copy_role_directory "s" "d" ⟨none, some (FsNode.file "old")⟩).1 = .ok () ∧
      (copy_role_directory "s" "d" ⟨none, some (FsNode.file "old")⟩).2.2 = true ∧
      (copy_role_directory "s" "d" ⟨none, some (FsNode.file "old")⟩).2.1.dest =
        some (copytree_ignoring (.dir children))) :=
  copy_role_directory_fails_fast "s" "d" ⟨none, some (FsNode.file "old")⟩

/-! ## Theorems about the config loaders -/

/-- C7: each loader returns `None` exactly when the path does not exist,
turns parse failures into `ValueError`, other read failures into
`RuntimeError`, and a successfully parsed but wrongly-shaped top level
into a `TypeError` carrying the hint — which arises only from the
post-parse shape check, so the error kinds are never conflated. -/
theorem load_files_error_taxonomy (w : String → ReadOutcome) (file_path : String) :
    (load_collections_file w file_path = .ok none ↔ w file_path = .absent) ∧
    (∀ m, w file_path = .parse_failure m →
      load_collections_file w file_path =
        .error ⟨.valueError,
          "Failed to parse collections file " ++ file_path ++ ": " ++ m⟩) ∧
    (∀ m, w file_path = .read_failure m →
      load_collections_file w file_path =
        .error ⟨.runtimeError,
          "Failed to load collections file " ++ file_path ++ ": " ++ m⟩) ∧
    (∀ v, w file_path = .parsed v → (∀ n, v ≠ .pylist n) →
      load_collections_file w file_path =
        .error ⟨.typeError, collections_type_error_msg file_path v⟩) ∧
    (∀ n, w file_path = .parsed (.pylist n) →
      load_collections_file w file_path = .ok (some (.pylist n))) ∧
    (∀ e, load_collections_file w file_path = .error e → e.kind = .typeError →
      ∃ v, w file_path = .parsed v) ∧
    (load_inventory_file w file_path = .ok none ↔ w file_path = .absent) ∧
    (∀ m, w file_path = .parse_failure m →
      load_inventory_file w file_path =
        .error ⟨.valueError,
          "Failed to parse inventory file " ++ file_path ++ ": " ++ m⟩) ∧
    (∀ m, w file_path = .read_failure m →
      load_inventory_file w file_path =
        .error ⟨.runtimeError,
          "Failed to load inventory file " ++ file_path ++ ": " ++ m⟩) ∧
    (∀ v, w file_path = .parsed v → (∀ n, v ≠ .pydict n) →
      load_inventory_file w file_path =
        .error ⟨.typeError, inventory_type_error_msg file_path v⟩) ∧
    (∀ n, w file_path = .parsed (.pydict n) →
      load_inventory_file w file_path = .ok (some (.pydict n))) ∧
    (∀ e, load_inventory_file w file_path = .error e → e.kind = .typeError →
      ∃ v, w file_path = .parsed v) := by
  refine ⟨?_, ?_, ?_, ?_, ?_, ?_, ?_, ?_, ?_, ?_, ?_, ?_⟩
  · constructor
    · intro h
      cases hw : w file_path with
      | absent => rfl
      | parse_failure m => simp [load_collections_file, hw] at h
      | read_failure m => simp [load_collections_file, hw] at h
      | parsed v => cases v <;> simp [load_collections_file, hw] at h
    · intro h
      simp [load_collections_file, h]
  · intro m h
    simp [load_collections_file, h]
  · intro m h
    simp [load_collections_file, h]
  · intro v h hne
    cases v with
    | pylist n => exact absurd rfl (hne n)
    | pydict n => simp [load_collections_file, h]
    | pystr s => simp [load_collections_file, h]
    | pyint n => simp [load_collections_file, h]
    | pybool b => simp [load_collections_file, h]
    | pynone => simp [load_collections_file, h]
  · intro n h
    simp [load_collections_file, h]
  · intro e he hkind
    cases hw : w file_path with
    | absent => simp [load_collections_file, hw] at he
    | parse_failure m =>
      simp [load_collections_file, hw] at he
      rw [← he] at hkind
      cases hkind
    | read_failure m =>
      simp [load_collections_file, hw] at he
      rw [← he] at hkind
      cases hkind
    | parsed v => exact ⟨v, rfl⟩
  · constructor
    · intro h
      cases hw : w file_path with
      | absent => rfl
      | parse_failure m => simp [load_inventory_file, hw] at h
      | read_failure m => simp [load_inventory_file, hw] at h
      | parsed v => cases v <;> simp [load_inventory_file, hw] at h
    · intro h
      simp [load_inventory_file, h]
  · intro m h
    simp [load_inventory_file, h]
  · intro m h
    simp [load_inventory_file, h]
  · intro v h hne
    cases v with
    | pydict n => exact absurd rfl (hne n)
    | pylist n => simp [load_inventory_file, h]
    | pystr s => simp [load_inventory_file, h]
    | pyint n => simp [load_inventory_file, h]
    | pybool b => simp [load_inventory_file, h]
    | pynone => simp [load_inventory_file, h]
  · intro n h
    simp [load_inventory_file, h]
  · intro e he hkind
    cases hw : w file_path with
    | absent => simp [load_inventory_file, hw] at he
    | parse_failure m =>
      simp [load_inventory_file, hw] at he
      rw [← he] at hkind
      cases hkind
    | read_failure m =>
      simp [load_inventory_file, hw] at he
      rw [← he] at hkind
      cases hkind
    | parsed v => exact ⟨v, rfl⟩

/-- C7 witness: the taxonomy applied to a file that parses to a string. -/
theorem load_files_error_taxonomy_witness :
    (load_collections_file (fun _ => .parsed (.pystr "x")) "c.yml" = .ok none ↔
      (fun _ => ReadOutcome.parsed (.pystr "x")) "c.yml" = .absent) ∧
    (∀ m, (fun _ => ReadOutcome.parsed (.pystr "x")) "c.yml" = .parse_failure m →
      load_collections_file (fun _ => .parsed (.pystr "x")) "c.yml" =
        .error ⟨.valueError,
          "Failed to parse collections file " ++ "c.yml" ++ ": " ++ m⟩) ∧
    (∀ m, (fun _ => ReadOutcome.parsed (.pystr "x")) "c.yml" = .read_failure m →
      load_collections_file (fun _ => .parsed (.pystr "x")) "c.yml" =
        .error ⟨.runtimeError,
          "Failed to load collections file " ++ "c.yml" ++ ": " ++ m⟩) ∧
    (∀ v, (fun _ => ReadOutcome.parsed (.pystr "x")) "c.yml" = .parsed v →
      (∀ n, v ≠ .pylist n) →
      load_collections_file (fun _ => .parsed (.pystr "x")) "c.yml" =
        .error ⟨.typeError, collections_type_error_msg "c.yml" v⟩) ∧
    (∀ n, (fun _ => ReadOutcome.parsed (.pystr "x")) "c.yml" = .parsed (.pylist n) →
      load_collections_file (fun _ => .parsed (.pystr "x")) "c.yml" =
        .ok (some (.pylist n))) ∧
    (∀ e, load_collections_file (fun _ => .parsed (.pystr "x")) "c.yml" = .error e →
      e.kind = .typeError →
      ∃ v, (fun _ => ReadOutcome.parsed (.pystr "x")) "c.yml" = .parsed v) ∧
    (load_inventory_file (fun _ => .parsed (.pystr "x")) "c.yml" = .ok none ↔
      (fun _ => ReadOutcome.parsed (.pystr "x")) "c.yml" = .absent) ∧
    (∀ m, (fun _ => ReadOutcome.parsed (.pystr "x")) "c.yml" = .parse_failure m →
      load_inventory_file (fun _ => .parsed (.pystr "x")) "c.yml" =
        .error ⟨.valueError,
          "Failed to parse inventory file " ++ "c.yml" ++ ": " ++ m⟩) ∧
    (∀ m, (fun _ => ReadOutcome.parsed (.pystr "x")) "c.yml" = .read_failure m →
      load_inventory_file (fun _ => .parsed (.pystr "x")) "c.yml" =
        .error ⟨.runtimeError,
          "Failed to load inventory file " ++ "c.yml" ++ ": " ++ m⟩) ∧
    (∀ v, (fun _ => ReadOutcome.parsed (.pystr "x")) "c.yml" = .parsed v →
      (∀ n, v ≠ .pydict n) →
      load_inventory_file (fun _ => .parsed (.pystr "x")) "c.yml" =
        .error ⟨.typeError, inventory_type_error_msg "c.yml" v⟩) ∧
    (∀ n, (fun _ => ReadOutcome.parsed (.pystr "x")) "c.yml" = .parsed (.pydict n) →
      load_inventory_file (fun _ => .parsed (.pystr "x")) "c.yml" =
        .ok (some (.pydict n))) ∧
    (∀ e, load_inventory_file (fun _ => .parsed (.pystr "x")) "c.yml" = .error e →
      e.kind = .typeError →
      ∃ v, (fun _ => ReadOutcome.parsed (.pystr "x")) "c.yml" = .parsed v) :=
  load_files_error_taxonomy (fun _ => .parsed (.pystr "x")) "c.yml"

/-! ## Theorems about the incremental `publish_project` -/

/-- A filter that keeps every entry at path `q` does not change the
lookup at `q`. -/
theorem fsGet_filter_of_keep (fs : FS) (q : FsPath)
    (pred : FsPath × FSFile → Bool)
    (h : ∀ e : FsPath × FSFile, e.1 = q → pred e = true) :
    fsGet (fs.filter pred) q = fsGet fs q := by
  induction fs with
  | nil => rfl
  | cons e rest ih =>
    by_cases heq : e.1 = q
    · simp [List.filter_cons, h e heq, fsGet, heq]
    · by_cases hp : pred e = true
      · simp [List.filter_cons, hp, fsGet, heq, ih]
      · simp [List.filter_cons, hp, fsGet, heq, ih]

/-- Writing another path does not change the lookup. -/
theorem fsGet_fsSet_ne (fs : FS) (p q : FsPath) (f : FSFile) (h : q ≠ p) :
    fsGet (fsSet fs p f) q = fsGet fs q := by
  have hpq : ¬ (p = q) := fun hh => h hh.symm
  have hkeep : ∀ e : FsPath × FSFile, e.1 = q →
      (fun e => decide (e.1 ≠ p)) e = true := by
    intro e he
    simp only [he]
    simpa using h
  show (if p = q then some f
    else fsGet (fs.filter fun e => decide (e.1 ≠ p)) q) = fsGet fs q
  rw [if_neg hpq]
  exact fsGet_filter_of_keep fs q _ hkeep

/-- Writing a path makes the lookup return the written file. -/
theorem fsGet_fsSet_self (fs : FS) (p : FsPath) (f : FSFile) :
    fsGet (fsSet fs p f) p = some f := by
  simp [fsSet, fsGet]

/-- Removing a subtree that does not contain `q` does not change the
lookup at `q`. -/
theorem fsGet_fsRemoveUnder (fs : FS) (pre q : FsPath)
    (h : leadsWith pre q = false) :
    fsGet (fsRemoveUnder fs pre) q = fsGet fs q := by
  rw [fsRemoveUnder]
  refine fsGet_filter_of_keep fs q _ ?_
  intro e he
  simp only [he, h]
  rfl

/-- Copying role entries beneath `dest` does not change the lookup at a
path not beneath `dest`. -/
theorem fsGet_copy_role_entries (now src_len : Nat) (dest q : FsPath)
    (h : ∀ rel, q ≠ dest ++ rel) (fs : FS)
    (entries : List (FsPath × FSFile)) :
    fsGet (copy_role_entries now src_len dest fs entries) q = fsGet fs q := by
  induction entries generalizing fs with
  | nil => rfl
  | cons e rest ih =>
    simp only [copy_role_entries]
    by_cases hex : (e.1.drop src_len).any (fun n => decide (n ∈ excluded_items)) = true
    · rw [if_pos hex]
      exact ih fs
    · rw [if_neg hex]
      rw [ih _]
      exact fsGet_fsSet_ne _ _ _ _ (h _)

theorem cfg_path_ne_under_roles (project_id module_name : String) (rel : FsPath) :
    cfg_path project_id ≠ roles_dest project_id module_name ++ rel := by
  intro h
  rw [cfg_path, roles_dest, project_target] at h
  simp only [List.cons_append, List.nil_append, List.cons.injEq] at h
  exact absurd h.2.2.1 (by decide)

theorem cfg_path_ne_playbook (project_id module_name : String) :
    cfg_path project_id ≠ wrapper_playbook_path project_id module_name := by
  intro h
  rw [cfg_path, wrapper_playbook_path, project_target] at h
  simp only [List.cons_append, List.nil_append, List.cons.injEq] at h
  exact absurd h.2.2.1 (by decide)

theorem cfg_path_ne_collections (project_id : String) :
    cfg_path project_id ≠ project_target project_id ++ ["collections", "requirements.yml"] := by
  intro h
  rw [cfg_path, project_target] at h
  simp only [List.cons_append, List.nil_append, List.cons.injEq] at h
  exact absurd h.2.2.1 (by decide)

theorem cfg_path_ne_inventory (project_id : String) :
    cfg_path project_id ≠ project_target project_id ++ ["inventory", "hosts.yml"] := by
  intro h
  rw [cfg_path, project_target] at h
  simp only [List.cons_append, List.nil_append, List.cons.injEq] at h
  exact absurd h.2.2.1 (by decide)

theorem leadsWith_roles_cfg (project_id module_name : String) :
    leadsWith (roles_dest project_id module_name) (cfg_path project_id) = false := by
  rw [roles_dest, cfg_path, project_target]
  simp only [List.cons_append, List.nil_append]
  rw [leadsWith, leadsWith, leadsWith]
  have h3 : decide ("roles" = "ansible.cfg") = false := by decide
  rw [h3]
  simp

/-- When `ansible.cfg` is present before the call, a successful
incremental publish leaves its entry — content and mtime — unchanged. -/
theorem publish_preserves_cfg_entry (now : Nat) (fs : FS)
    (project_id module_name : String) (f : FSFile)
    (hcfg : fsGet fs (cfg_path project_id) = some f)
    (fs2 : FS) (tgt : FsPath)
    (hok : publish_project now fs project_id module_name = .ok (fs2, tgt)) :
    fsGet fs2 (cfg_path project_id) = some f := by
  rw [publish_project] at hok
  by_cases hemp : (fs.filter
      (fun e => leadsWith (src_role_path project_id module_name) e.1)).isEmpty = true
  · rw [if_pos hemp] at hok
    cases hok
  · rw [if_neg hemp] at hok
    injection hok with hpair
    injection hpair with h1 h2
    subst h1
    rw [fsGet_fsSet_ne _ _ _ _ (cfg_path_ne_playbook project_id module_name)]
    rw [fsGet_copy_role_entries now _ _ _
      (cfg_path_ne_under_roles project_id module_name) _ _]
    rw [fsGet_fsRemoveUnder _ _ _ (leadsWith_roles_cfg project_id module_name)]
    rw [if_neg (by rw [hcfg]; intro hh; cases hh)]
    exact hcfg

/-- When `ansible.cfg` is absent before the call, a successful
incremental publish generates the skeleton: afterwards `ansible.cfg`
carries the template body and the current time. -/
theorem publish_writes_cfg (now : Nat) (fs : FS)
    (project_id module_name : String)
    (hcfg : fsGet fs (cfg_path project_id) = none)
    (fs2 : FS) (tgt : FsPath)
    (hok : publish_project now fs project_id module_name = .ok (fs2, tgt)) :
    fsGet fs2 (cfg_path project_id) = some ⟨now, ansible_cfg_template⟩ := by
  rw [publish_project] at hok
  by_cases hemp : (fs.filter
      (fun e => leadsWith (src_role_path project_id module_name) e.1)).isEmpty = true
  · rw [if_pos hemp] at hok
    cases hok
  · rw [if_neg hemp] at hok
    injection hok with hpair
    injection hpair with h1 h2
    subst h1
    rw [fsGet_fsSet_ne _ _ _ _ (cfg_path_ne_playbook project_id module_name)]
    rw [fsGet_copy_role_entries now _ _ _
      (cfg_path_ne_under_roles project_id module_name) _ _]
    rw [fsGet_fsRemoveUnder _ _ _ (leadsWith_roles_cfg project_id module_name)]
    rw [if_pos hcfg]
    rw [write_skeleton]
    rw [fsGet_fsSet_ne _ _ _ _ (cfg_path_ne_inventory project_id)]
    rw [fsGet_fsSet_ne _ _ _ _ (cfg_path_ne_collections project_id)]
    exact fsGet_fsSet_self _ _ _

/-- C3: the skeleton is generated exactly when `ansible.cfg` is absent
in the target project; when it is present, a publish — in particular the
second module's publish — leaves its entry (content and mtime) exactly
as it was, and in the two-call scenario the second call preserves the
first call's stamp. -/
theorem publish_project_skeleton_once (project_id : String) :
    (∀ (now : Nat) (fs : FS) (module_name : String) (f : FSFile)
        (fs2 : FS) (tgt : FsPath),
      fsGet fs (cfg_path project_id) = some f →
      publish_project now fs project_id module_name = .ok (fs2, tgt) →
      fsGet fs2 (cfg_path project_id) = some f) ∧
    (∀ (now : Nat) (fs : FS) (module_name : String) (fs2 : FS) (tgt : FsPath),
      fsGet fs (cfg_path project_id) = none →
      publish_project now fs project_id module_name = .ok (fs2, tgt) →
      fsGet fs2 (cfg_path project_id) = some ⟨now, ansible_cfg_template⟩) ∧
    (∀ (modA modB : String) (t0 t1 : Nat) (fs fsA fsB : FS)
        (tgtA tgtB : FsPath),
      fsGet fs (cfg_path project_id) = none →
      publish_project t0 fs project_id modA = .ok (fsA, tgtA) →
      publish_project t1 fsA project_id modB = .ok (fsB, tgtB) →
      fsGet fsB (cfg_path project_id) = some ⟨t0, ansible_cfg_template⟩) := by
  refine ⟨?_, ?_, ?_⟩
  · intro now fs module_name f fs2 tgt hcfg hok
    exact publish_preserves_cfg_entry now fs project_id module_name f hcfg fs2 tgt hok
  · intro now fs module_name fs2 tgt hcfg hok
    exact publish_writes_cfg now fs project_id module_name hcfg fs2 tgt hok
  · intro modA modB t0 t1 fs fsA fsB tgtA tgtB hcfg h1 h2
    have hA := publish_writes_cfg t0 fs project_id modA hcfg fsA tgtA h1
    exact publish_preserves_cfg_entry t1 fsA project_id modB _ hA fsB tgtB h2

/-- C3 witness: the skeleton-once theorem applied to project `p`. -/
theorem publish_project_skeleton_once_witness :
    (∀ (now : Nat) (fs : FS) (module_name : String) (f : FSFile)
        (fs2 : FS) (tgt : FsPath),
      fsGet fs (cfg_path "p") = some f →
      publish_project now fs "p" module_name = .ok (fs2, tgt) →
      fsGet fs2 (cfg_path "p") = some f) ∧
    (∀ (now : Nat) (fs : FS) (module_name : String) (fs2 : FS) (tgt : FsPath),
      fsGet fs (cfg_path "p") = none →
      publish_project now fs "p" module_name = .ok (fs2, tgt) →
      fsGet fs2 (cfg_path "p") = some ⟨now, ansible_cfg_template⟩) ∧
    (∀ (modA modB : String) (t0 t1 : Nat) (fs fsA fsB : FS)
        (tgtA tgtB : FsPath),
      fsGet fs (cfg_path "p") = none →
      publish_project t0 fs "p" modA = .ok (fsA, tgtA) →
      publish_project t1 fsA "p" modB = .ok (fsB, tgtB) →
      fsGet fsB (cfg_path "p") = some ⟨t0, ansible_cfg_template⟩) :=
  publish_project_skeleton_once "p"

end X2A
